import Mathlib

/-!
Shallow embedding of vcf_annotation_tools/vep_annotation_reporter.py.

Python strings are modelled as lists of characters (PyStr) and Python
dicts as insertion-ordered association lists, so that both lookup order
and insertion order match CPython dict semantics.  Fallible Python code
(raised exceptions, sys.exit) is modelled with Option / Except.
-/

/-- A Python string, modelled as its list of characters. -/
abbrev PyStr := List Char

/-- A Python dict entry lookup: first binding wins (association lists never
hold duplicate keys, because aupdate updates in place). -/
def alookup {κ α : Type} [DecidableEq κ] : List (κ × α) → κ → Option α
  | [], _ => none
  | (k, v) :: rest, key => if k = key then some v else alookup rest key

/-- Python dict assignment d[k] = v: updates an existing binding in place
(keeping its position, as CPython dicts do) or appends a new binding. -/
def aupdate {κ α : Type} [DecidableEq κ] : List (κ × α) → κ → α → List (κ × α)
  | [], key, v => [(key, v)]
  | (k, w) :: rest, key, v =>
    if k = key then (key, v) :: rest else (k, w) :: aupdate rest key v

/-- Python s.split(sep) for a single-character separator: the empty string
splits to one empty field, matching CPython. -/
def splitOnChar (sep : Char) : List Char → List (List Char)
  | [] => [[]]
  | c :: cs =>
    match splitOnChar sep cs with
    | [] => [[c]]
    | g :: gs => if c = sep then [] :: g :: gs else (c :: g) :: gs

/-- An annotation record (the transcript dict built in parse_csq_entries):
field name mapped to raw value, insertion ordered. -/
abbrev Record := List (PyStr × PyStr)

/-- The per-variant grouping of records by allele token
(the transcripts dict of parse_csq_entries). -/
abbrev TranscriptMap := List (PyStr × List Record)

/-- The schema field name Allele. -/
def alleleKey : PyStr := ['A', 'l', 'l', 'e', 'l', 'e']

/-- The schema field name PICK. -/
def pickKey : PyStr := ['P', 'I', 'C', 'K']

/-- One entry of the CSQ value: transcript = dict(zip(csq_fields, entry.split(pipe))).
Positional zip truncates at the shorter side, as in Python. -/
def buildTranscript (csq_fields : List PyStr) (entry : PyStr) : Record :=
  (List.zip csq_fields (splitOnChar '|' entry)).foldl
    (fun t kv => aupdate t kv.1 kv.2) []

/-- The loop body of parse_csq_entries, entry list threaded through an
accumulator.  none models the KeyError raised by transcript[Allele] when the
entry supplies no value at the Allele schema position. -/
def parse_csq_aux (csq_fields : List PyStr) (transcripts : TranscriptMap) :
    List PyStr → Option TranscriptMap
  | [] => some transcripts
  | entry :: rest =>
    let t := buildTranscript csq_fields entry
    match alookup t alleleKey with
    | none => none
    | some a =>
      match alookup transcripts a with
      | none => parse_csq_aux csq_fields (aupdate transcripts a [t]) rest
      | some lst => parse_csq_aux csq_fields (aupdate transcripts a (lst ++ [t])) rest

/-- parse_csq_entries(csq_entries, csq_fields) from the source: builds the
allele-token grouping of annotation records. -/
def parse_csq_entries (csq_entries : List PyStr) (csq_fields : List PyStr) :
    Option TranscriptMap :=
  parse_csq_aux csq_fields [] csq_entries

/-- A VCF variant record as used by the reporter: CHROM, str(POS), REF as
strings, the ALT list, the cyvcf2 classification flags, and the raw CSQ INFO
value when present. -/
structure Variant where
  CHROM : PyStr
  POS : PyStr
  REF : PyStr
  ALT : List PyStr
  is_indel : Bool
  is_sv : Bool
  CSQ : Option PyStr
deriving DecidableEq

set_option linter.unusedVariables false in
/-- resolve_alleles(entry, csq_alleles) from the source.  The indel branch
compares one-character slices and strips the anchor base; the structural
variant branch iterates over the name alts, which is undefined in the
function scope, so CPython raises NameError there before producing any
mapping (modelled as none); the final branch maps each ALT to itself. -/
def resolve_alleles (entry : Variant) (csq_alleles : List PyStr) :
    Option (List (PyStr × PyStr)) :=
  if entry.is_indel then
    some (entry.ALT.foldl
      (fun alleles alt => aupdate alleles alt
        (if alt.take 1 ≠ entry.REF.take 1 then alt
         else if alt.drop 1 = [] then ['-']
         else alt.drop 1)) [])
  else if entry.is_sv then
    none
  else
    some (entry.ALT.foldl (fun alleles alt => aupdate alleles alt alt) [])

/-- transcript_for_alt(transcripts, alt) from the source: first record whose
PICK field equals the string 1, else the first record of the group.  none
models the KeyError of a missing alt key or the IndexError of an empty
group. -/
def transcript_for_alt (transcripts : TranscriptMap) (alt : PyStr) : Option Record :=
  match alookup transcripts alt with
  | none => none
  | some ts =>
    match ts.find? (fun t => alookup t pickKey = some ['1']) with
    | some t => some t
    | none => ts.head?

/-- Membership in the regex character class of decode_hex substitution:
the pattern in the source is a percent sign and then twice the class
holding the digits, a literal bar and the uppercase letters A to F. -/
def inClass (c : Char) : Bool :=
  (('0' ≤ c && c ≤ '9') || c = '|' || ('A' ≤ c && c ≤ 'F'))

/-- Numeric value of one hex digit as binascii.unhexlify accepts it here;
none models the binascii.Error raised when the class character is the
literal bar. -/
def hexVal (c : Char) : Option Nat :=
  if '0' ≤ c && c ≤ '9' then some (c.toNat - 48)
  else if 'A' ≤ c && c ≤ 'F' then some (c.toNat - 55)
  else none

/-- re.sub of the decode_hex pattern over a field value: a left-to-right
scan replacing each match of percent and two class characters by the
byte decoded as UTF-8.  none models the exceptions decode_hex can raise:
binascii.Error on a bar in the class, UnicodeDecodeError on a byte of
128 or more. -/
def decodeHexSub : List Char → Option (List Char)
  | '%' :: x :: y :: rest =>
    if inClass x && inClass y then
      match hexVal x, hexVal y with
      | some a, some b =>
        let n := 16 * a + b
        if n < 128 then (decodeHexSub rest).map (fun t => Char.ofNat n :: t)
        else none
      | _, _ => none
    else (decodeHexSub (x :: y :: rest)).map (fun t => '%' :: t)
  | c :: cs => (decodeHexSub cs).map (fun t => c :: t)
  | [] => some []

/-- Whether the decode_hex pattern matches anywhere in the string. -/
def hasPctMatch : List Char → Bool
  | '%' :: x :: y :: rest => (inClass x && inClass y) || hasPctMatch (x :: y :: rest)
  | _ :: cs => hasPctMatch cs
  | [] => false

/-- One VCF header metadata entry as header_iter with info(extra) exposes
it: the ID key when present, and the Description text. -/
structure HeaderInfo where
  id : Option PyStr
  description : PyStr
deriving DecidableEq

/-- The header ID the reporter looks for. -/
def csqKey : PyStr := ['C', 'S', 'Q']

/-- The predicate of the header scan in parse_csq_header. -/
def isCSQHeader (hd : HeaderInfo) : Bool := hd.id == some csqKey

/-- Everything before the last occurrence of c in s (the greedy regex
group runs up to the last closing quote). -/
def beforeLast (c : Char) (s : List Char) : List Char :=
  ((s.reverse.dropWhile (fun d => d ≠ c)).drop 1).reverse

/-- Search of the pattern Format-colon-space group-dot-star quote over a
description string: the leftmost occurrence of the literal marker that is
followed by a closing quote; the group is greedy, running to the last
quote.  none models re.search returning None. -/
def formatGroup : List Char → Option (List Char)
  | [] => none
  | c :: cs =>
    if (c :: cs).take 8 = ['F', 'o', 'r', 'm', 'a', 't', ':', ' '] then
      let rest := (c :: cs).drop 8
      if '"' ∈ rest then some (beforeLast '"' rest) else none
    else formatGroup cs

/-- Abnormal terminations of the program, one constructor per distinct
CPython exception site the modelled code can reach.  dupExit is the
duplicate-entry branch of main: the source calls sys.exit on a message
formatted from the four operands in hand (its final conversion is a
space-flagged ascii conversion consuming the ALT operand), so the run
aborts there with a message identifying the coordinate and allele; the
constructor records those four operands. -/
inductive PyErr where
  | dupExit (chrom pos ref alt : PyStr)
  | keyError
  | typeError
  | nameError
  | indexError
  | attributeError
  | unicodeError
deriving DecidableEq

/-- parse_csq_header(vcf_file): the first header entry whose ID is CSQ
decides the outcome: no such entry falls through to Python None; an entry
whose description lacks the Format marker makes match.group raise
AttributeError; otherwise the group is split on pipes into the schema. -/
def parse_csq_header (headers : List HeaderInfo) : Except PyErr (Option (List PyStr)) :=
  match headers.find? isCSQHeader with
  | none => Except.ok none
  | some hd =>
    match formatGroup hd.description with
    | none => Except.error PyErr.attributeError
    | some g => Except.ok (some (splitOnChar '|' g))

/-- The composite key of the vep index.  The source nests four dicts
keyed by CHROM, str(POS), REF and ALT; the nested lookups succeed exactly
when the flattened composite key is present, so the index is modelled as
one association list over the 4-tuple. -/
abbrev VepKey := PyStr × PyStr × PyStr × PyStr

/-- The vep index: composite key to stored record, with none as the
absent-marker (Python None) for unannotated entries. -/
abbrev VepMap := List (VepKey × Option Record)

/-- The body of the per-alt loop of the index build (main, lines 122 to
129): a key already present aborts via the duplicate branch; otherwise
alleles_dict[alt] is read (KeyError when the resolver produced no mapping
for this alt), the token is looked up among the parsed groups, and the
selected transcript or the absent-marker is stored. -/
def vepStep (tm : TranscriptMap) (ad : List (PyStr × PyStr)) (c p r : PyStr)
    (m : VepMap) (alt : PyStr) : Except PyErr VepMap :=
  match alookup m (c, p, r, alt) with
  | some _ => Except.error (PyErr.dupExit c p r alt)
  | none =>
    match alookup ad alt with
    | none => Except.error PyErr.keyError
    | some a =>
      if (alookup tm a).isSome then
        match transcript_for_alt tm a with
        | some t => Except.ok (aupdate m (c, p, r, alt) (some t))
        | none => Except.error PyErr.indexError
      else Except.ok (aupdate m (c, p, r, alt) none)

/-- One iteration of the variant loop of main.  A variant with no CSQ
INFO value writes the absent-marker for each of its ALTs, with no
duplicate check; a variant with a CSQ value parses it (zip with a missing
schema raises TypeError when csq_fields is Python None), resolves its
alleles and runs the per-alt loop. -/
def processVariant (csq_fields : Option (List PyStr)) (vep : VepMap) (v : Variant) :
    Except PyErr VepMap :=
  match v.CSQ with
  | none =>
    Except.ok (v.ALT.foldl (fun m alt => aupdate m (v.CHROM, v.POS, v.REF, alt) none) vep)
  | some csq =>
    match csq_fields with
    | none => Except.error PyErr.typeError
    | some fields =>
      match parse_csq_entries (splitOnChar ',' csq) fields with
      | none => Except.error PyErr.keyError
      | some tm =>
        match resolve_alleles v (tm.map Prod.fst) with
        | none => Except.error PyErr.nameError
        | some ad => v.ALT.foldlM (vepStep tm ad v.CHROM v.POS v.REF) vep

/-- The whole index-building pass of main over the VCF records. -/
def buildVep (csq_fields : Option (List PyStr)) (variants : List Variant) :
    Except PyErr VepMap :=
  variants.foldlM (processVariant csq_fields) []

/-- The value collected for one ALT of one report row and one requested
field (main, lines 146 to 153): the index lookup raises KeyError for a key
never seen in the VCF; a stored absent-marker or a stored record lacking
the field collects the dash placeholder; a stored value is percent
decoded. -/
def collectAnnot (vep : VepMap) (key : VepKey) (field : PyStr) : Except PyErr PyStr :=
  match alookup vep key with
  | none => Except.error PyErr.keyError
  | some none => Except.ok ['-']
  | some (some rec) =>
    match alookup rec field with
    | none => Except.ok ['-']
    | some ann =>
      match decodeHexSub ann with
      | none => Except.error PyErr.unicodeError
      | some d => Except.ok d

/-- Python comma join of the collected values. -/
def joinComma (xs : List PyStr) : PyStr := List.intercalate [','] xs

/-- One report row processed for every requested field: the row dict is
threaded through (the source aliases row and entry), each field appending
its joined column.  Missing CHROM, POS, REF or ALT columns raise
KeyError. -/
def processRow (vep : VepMap) (vep_fields : List PyStr) (entry : Record) :
    Except PyErr Record :=
  vep_fields.foldlM (fun row field =>
    match alookup row ['A', 'L', 'T'] with
    | none => Except.error PyErr.keyError
    | some altCol => do
      let anns ← (splitOnChar ',' altCol).mapM (fun alt =>
        match alookup row ['C', 'H', 'R', 'O', 'M'], alookup row ['P', 'O', 'S'],
              alookup row ['R', 'E', 'F'] with
        | some c, some p, some r => collectAnnot vep (c, p, r, alt) field
        | _, _, _ => Except.error PyErr.keyError)
      pure (aupdate row field (joinComma anns))) entry

/-- The whole run of main: schema from the header, then the index build,
then the report stream; each phase runs only if the previous one did not
abort, so a fatal index-build error yields no output rows. -/
def mainModel (headers : List HeaderInfo) (variants : List Variant)
    (rows : List Record) (vep_fields : List PyStr) : Except PyErr (List Record) := do
  let csq_fields ← parse_csq_header headers
  let vep ← buildVep csq_fields variants
  rows.mapM (processRow vep vep_fields)

/-- The records of a list of CSQ entries whose Allele field carries the
token a, in entry order: the specification-level description of one group
of parse_csq_entries output. -/
def groupOf (fs : List PyStr) (a : PyStr) (es : List PyStr) : List Record :=
  (es.map (buildTranscript fs)).filter (fun t => decide (alookup t alleleKey = some a))

theorem alookup_aupdate {κ α : Type} [DecidableEq κ] (m : List (κ × α)) (k key : κ) (v : α) :
    alookup (aupdate m k v) key = if k = key then some v else alookup m key := by
  induction m with
  | nil => simp [aupdate, alookup]
  | cons hd rest ih =>
    obtain ⟨a, b⟩ := hd
    simp only [aupdate]
    by_cases h1 : a = k
    · subst h1
      by_cases h2 : a = key <;> simp [alookup, h2]
    · by_cases h2 : a = key
      · subst h2
        have hk : ¬ k = a := fun h => h1 h.symm
        simp [alookup, h1, hk, ih]
      · simp [alookup, h1, h2, ih]

theorem alookup_foldl_update {κ α : Type} [DecidableEq κ] (f : κ → α) :
    ∀ (l : List κ) (init : List (κ × α)) (key : κ),
    alookup (l.foldl (fun m a => aupdate m a (f a)) init) key =
      if key ∈ l then some (f key) else alookup init key := by
  intro l
  induction l with
  | nil => simp
  | cons a l ih =>
    intro init key
    simp only [List.foldl_cons, ih, alookup_aupdate]
    by_cases h : key ∈ l
    · simp [h]
    · by_cases h2 : a = key
      · subst h2
        simp [h]
      · have hne : ¬ key = a := fun hx => h2 hx.symm
        have hnm : ¬ key ∈ a :: l := by simp [List.mem_cons, h, hne]
        simp [h, h2, hnm]

theorem alookup_foldl_pairs_isSome {κ α : Type} [DecidableEq κ] :
    ∀ (ps : List (κ × α)) (init : List (κ × α)) (key : κ),
    (alookup (ps.foldl (fun m kv => aupdate m kv.1 kv.2) init) key).isSome ↔
      (key ∈ ps.map Prod.fst ∨ (alookup init key).isSome) := by
  intro ps
  induction ps with
  | nil => simp
  | cons kv ps ih =>
    intro init key
    obtain ⟨a, b⟩ := kv
    simp only [List.foldl_cons, ih, alookup_aupdate, List.map_cons, List.mem_cons]
    by_cases h : a = key
    · subst h
      simp
    · have : ¬ key = a := fun hx => h hx.symm
      simp [h, this, or_assoc]

theorem map_fst_zip_take {α β : Type} :
    ∀ (l : List α) (l2 : List β), (List.zip l l2).map Prod.fst = l.take l2.length := by
  intro l
  induction l with
  | nil => simp
  | cons a l ih =>
    intro l2
    cases l2 with
    | nil => simp
    | cons b l2 => simp [ih]

theorem buildTranscript_isSome (fs : List PyStr) (e : PyStr) (key : PyStr) :
    (alookup (buildTranscript fs e) key).isSome ↔
      key ∈ fs.take (splitOnChar '|' e).length := by
  unfold buildTranscript
  rw [alookup_foldl_pairs_isSome, map_fst_zip_take]
  simp [alookup]

theorem parse_csq_aux_group (fs : List PyStr) :
    ∀ (es : List PyStr) (acc m : TranscriptMap),
    parse_csq_aux fs acc es = some m →
    ∀ a, alookup m a =
      match alookup acc a with
      | some g => some (g ++ groupOf fs a es)
      | none => if groupOf fs a es = [] then none else some (groupOf fs a es) := by
  intro es
  induction es with
  | nil =>
    intro acc m hm a
    simp only [parse_csq_aux, Option.some.injEq] at hm
    subst hm
    simp only [groupOf, List.map_nil, List.filter_nil]
    cases h : alookup acc a <;> simp [h]
  | cons e es ih =>
    intro acc m hm a
    simp only [parse_csq_aux] at hm
    split at hm
    next h1 => exact absurd hm (by simp)
    next a0 h1 =>
      have hgroup : groupOf fs a (e :: es) =
          if a0 = a then buildTranscript fs e :: groupOf fs a es
          else groupOf fs a es := by
        simp only [groupOf, List.map_cons, List.filter_cons, h1]
        by_cases hx : a0 = a
        · subst hx; simp
        · simp [hx]
      split at hm
      next h2 =>
        have hrec := ih (aupdate acc a0 [buildTranscript fs e]) m hm a
        rw [hrec, alookup_aupdate, hgroup]
        by_cases hx : a0 = a
        · subst hx
          simp [h2]
        · simp [hx]
      next lst h2 =>
        have hrec := ih (aupdate acc a0 (lst ++ [buildTranscript fs e])) m hm a
        rw [hrec, alookup_aupdate, hgroup]
        by_cases hx : a0 = a
        · subst hx
          simp [h2]
        · simp [hx]

theorem parse_group_filter (es fs : List PyStr) (m : TranscriptMap)
    (hm : parse_csq_entries es fs = some m) (a : PyStr) :
    alookup m a = if groupOf fs a es = [] then none else some (groupOf fs a es) := by
  have h := parse_csq_aux_group fs es [] m hm a
  simpa [alookup] using h

theorem parse_groups_ne (es fs : List PyStr) (m : TranscriptMap)
    (hm : parse_csq_entries es fs = some m) (a : PyStr) (ts : List Record)
    (h : alookup m a = some ts) : ts ≠ [] := by
  rw [parse_group_filter es fs m hm a] at h
  by_cases hg : groupOf fs a es = []
  · simp [hg] at h
  · rw [if_neg hg, Option.some.injEq] at h
    exact h ▸ hg

theorem transcript_for_alt_isSome (tm : TranscriptMap) (a : PyStr)
    (hne : ∀ x ts, alookup tm x = some ts → ts ≠ [])
    (h : (alookup tm a).isSome) : (transcript_for_alt tm a).isSome := by
  unfold transcript_for_alt
  cases hx : alookup tm a with
  | none => rw [hx] at h; simp at h
  | some ts =>
    cases hf : ts.find? (fun t => decide (alookup t pickKey = some ['1'])) with
    | none =>
      simp only [hf]
      have : ts ≠ [] := hne a ts hx
      simpa [List.head?_isSome] using this
    | some t => simp [hf]

theorem decodeHexSub_id (s : List Char) (h : hasPctMatch s = false) :
    decodeHexSub s = some s := by
  induction s using decodeHexSub.induct <;> simp_all [decodeHexSub, hasPctMatch]

theorem parse_csq_aux_total (fs : List PyStr) :
    ∀ (es : List PyStr) (acc : TranscriptMap),
    (∀ e ∈ es, (alookup (buildTranscript fs e) alleleKey).isSome) →
    (parse_csq_aux fs acc es).isSome := by
  intro es
  induction es with
  | nil => intro acc _; simp [parse_csq_aux]
  | cons e es ih =>
    intro acc h
    have he := h e (List.mem_cons_self e es)
    simp only [parse_csq_aux]
    split
    next hx => rw [hx] at he; simp at he
    next a0 hx =>
      split
      next => exact ih _ (fun e' he' => h e' (List.mem_cons_of_mem _ he'))
      next => exact ih _ (fun e' he' => h e' (List.mem_cons_of_mem _ he'))

/-- C1: for every variant flagged as an indel and every ALT allele of that
variant, resolve_alleles maps ALT to a token as follows: if the leading
one-character slice of ALT differs from that of REF, the token is ALT
verbatim; otherwise, if ALT with its first character removed is empty,
the token is the literal dash string; otherwise the token is ALT with its
first character removed. -/
theorem c1_indel_resolution (v : Variant) (cs : List PyStr)
    (hi : v.is_indel = true) (alt : PyStr) (ha : alt ∈ v.ALT) :
    ∃ m, resolve_alleles v cs = some m ∧
      alookup m alt = some (if alt.take 1 ≠ v.REF.take 1 then alt
        else if alt.drop 1 = [] then ['-'] else alt.drop 1) := by
  rw [resolve_alleles, if_pos hi]
  refine ⟨_, rfl, ?_⟩
  rw [alookup_foldl_update
    (fun alt => if alt.take 1 ≠ v.REF.take 1 then alt
      else if alt.drop 1 = [] then ['-'] else alt.drop 1)]
  simp [ha]

/-- Witness for c1_indel_resolution: an insertion REF A, ALT AT resolves
to T, and a deletion REF AT, ALT A resolves to the dash. -/
theorem c1_indel_resolution_witness :
    ((⟨['1'], ['5'], ['A'], [['A', 'T']], true, false, none⟩ : Variant).is_indel = true ∧
      ∃ m, resolve_alleles ⟨['1'], ['5'], ['A'], [['A', 'T']], true, false, none⟩ [] = some m ∧
        alookup m ['A', 'T'] = some ['T']) ∧
    (∃ m, resolve_alleles ⟨['1'], ['5'], ['A', 'T'], [['A']], true, false, none⟩ [] = some m ∧
        alookup m ['A'] = some ['-']) := by
  refine ⟨⟨rfl, ?_⟩, ?_⟩
  · have h := c1_indel_resolution ⟨['1'], ['5'], ['A'], [['A', 'T']], true, false, none⟩
      [] rfl ['A', 'T'] (by decide)
    exact h
  · have h := c1_indel_resolution ⟨['1'], ['5'], ['A', 'T'], [['A']], true, false, none⟩
      [] rfl ['A'] (by decide)
    exact h

/-- C4 counterexample: the claim says every percent sign followed by two
hexadecimal digits is decoded, but the substitution pattern of the source
matches only the digits, the uppercase letters A to F and a literal bar,
so the lowercase escape in stop%3dlost passes through undecoded instead of
becoming stop=lost. -/
theorem c4_lowercase_counterexample :
    decodeHexSub ("stop%3dlost".toList) = some ("stop%3dlost".toList) ∧
      ("stop%3dlost".toList : PyStr) ≠ "stop=lost".toList := ⟨by decide, by decide⟩

/-- C4 amended: percent-decoding is the identity on every string in which
no percent sign is followed by two characters of the class holding the
digits, the bar and the uppercase A to F (in particular lowercase hex
escapes such as %3d are left unchanged), and it decodes stop%3Dlost to
stop=lost. -/
theorem c4_amended_decode (s : List Char) (h : hasPctMatch s = false) :
    decodeHexSub s = some s ∧
      decodeHexSub ("stop%3Dlost".toList) = some ("stop=lost".toList) :=
  ⟨decodeHexSub_id s h, by decide⟩

/-- Witness for c4_amended_decode on a string that contains a percent sign
but no match of the pattern. -/
theorem c4_amended_decode_witness :
    hasPctMatch ("100%".toList) = false ∧
      (decodeHexSub ("100%".toList) = some ("100%".toList) ∧
       decodeHexSub ("stop%3Dlost".toList) = some ("stop=lost".toList)) :=
  ⟨by decide, c4_amended_decode ("100%".toList) (by decide)⟩

/-- C5: the claim describes the intended insertion, deletion, sole-member
precedence for structural variants over the variant's own ALT list, but
the structural-variant branch of resolve_alleles iterates over the name
alts, which is undefined in the function scope, so the branch aborts with
NameError for every structural variant and never produces any mapping. -/
theorem c5_sv_branch_aborts (v : Variant) (cs : List PyStr)
    (h1 : v.is_indel = false) (h2 : v.is_sv = true) :
    resolve_alleles v cs = none := by
  simp [resolve_alleles, h1, h2]

/-- Witness for c5_sv_branch_aborts at a concrete structural variant whose
annotation token set would satisfy the claimed insertion rule. -/
theorem c5_sv_branch_aborts_witness :
    ((⟨['1'], ['5'], ['A'], [['A', 'T', 'T']], false, true, none⟩ : Variant).is_indel = false ∧
     (⟨['1'], ['5'], ['A'], [['A', 'T', 'T']], false, true, none⟩ : Variant).is_sv = true) ∧
    resolve_alleles ⟨['1'], ['5'], ['A'], [['A', 'T', 'T']], false, true, none⟩
      ["insertion".toList] = none :=
  ⟨⟨rfl, rfl⟩,
   c5_sv_branch_aborts ⟨['1'], ['5'], ['A'], [['A', 'T', 'T']], false, true, none⟩
     ["insertion".toList] rfl rfl⟩

/-- C6: for a non-empty group of annotation records stored under an allele
token, transcript_for_alt returns the first record in list order whose PICK
field equals the string 1, and the first record of the group when none
qualifies, always successfully. -/
theorem c6_transcript_selection (transcripts : TranscriptMap) (alt : PyStr)
    (ts : List Record) (hts : alookup transcripts alt = some ts) (hne : ts ≠ []) :
    transcript_for_alt transcripts alt =
      some ((ts.find? (fun t => decide (alookup t pickKey = some ['1']))).getD ts.headI) := by
  simp only [transcript_for_alt, hts]
  cases hf : ts.find? (fun t => decide (alookup t pickKey = some ['1'])) with
  | some t => simp [hf]
  | none =>
    simp only [hf, Option.getD_none]
    cases ts with
    | nil => exact absurd rfl hne
    | cons a l => simp [List.headI]

/-- Witness for c6_transcript_selection on the worked example: annotation
value T|GENE1|1,T|GENE2|0 under the schema Allele, Gene, PICK; the PICK
record wins and its Gene field is GENE1. -/
theorem c6_transcript_selection_witness :
    alookup [(['T'],
        [[(alleleKey, ['T']), ("Gene".toList, "GENE1".toList), (pickKey, ['1'])],
         [(alleleKey, ['T']), ("Gene".toList, "GENE2".toList), (pickKey, ['0'])]])]
      ['T'] = some
        [[(alleleKey, ['T']), ("Gene".toList, "GENE1".toList), (pickKey, ['1'])],
         [(alleleKey, ['T']), ("Gene".toList, "GENE2".toList), (pickKey, ['0'])]] ∧
    transcript_for_alt [(['T'],
        [[(alleleKey, ['T']), ("Gene".toList, "GENE1".toList), (pickKey, ['1'])],
         [(alleleKey, ['T']), ("Gene".toList, "GENE2".toList), (pickKey, ['0'])]])]
      ['T'] = some [(alleleKey, ['T']), ("Gene".toList, "GENE1".toList), (pickKey, ['1'])] ∧
    alookup [(alleleKey, ['T']), ("Gene".toList, "GENE1".toList), (pickKey, ['1'])]
      ("Gene".toList) = some ("GENE1".toList) := by
  refine ⟨rfl, ?_, rfl⟩
  have h := c6_transcript_selection
    [(['T'],
        [[(alleleKey, ['T']), ("Gene".toList, "GENE1".toList), (pickKey, ['1'])],
         [(alleleKey, ['T']), ("Gene".toList, "GENE2".toList), (pickKey, ['0'])]])]
    ['T']
    [[(alleleKey, ['T']), ("Gene".toList, "GENE1".toList), (pickKey, ['1'])],
     [(alleleKey, ['T']), ("Gene".toList, "GENE2".toList), (pickKey, ['0'])]]
    rfl (by simp)
  exact h

/-- C7: on a raw annotation value split on commas, every entry is split on
bars and zipped positionally against the schema so that a record holds a
field exactly when the entry supplies a value at its position (trailing
schema fields beyond the available values are absent, not defaulted), and
the resulting mapping sends each allele token to the ordered list of the
records whose Allele value is that token, in original entry order. -/
theorem c7_block_parsing (raw : PyStr) (fs : List PyStr) (m : TranscriptMap)
    (hm : parse_csq_entries (splitOnChar ',' raw) fs = some m) :
    (∀ e k, (alookup (buildTranscript fs e) k).isSome ↔
        k ∈ fs.take (splitOnChar '|' e).length) ∧
    (∀ a, alookup m a =
      if groupOf fs a (splitOnChar ',' raw) = [] then none
      else some (groupOf fs a (splitOnChar ',' raw))) :=
  ⟨fun e k => buildTranscript_isSome fs e k,
   fun a => parse_group_filter (splitOnChar ',' raw) fs m hm a⟩

/-- Witness for c7_block_parsing on the raw value T|GENE1|1,T|GENE2|0 under
the schema Allele, Gene, PICK. -/
theorem c7_block_parsing_witness :
    parse_csq_entries (splitOnChar ',' ("T|GENE1|1,T|GENE2|0".toList))
        [alleleKey, "Gene".toList, pickKey] =
      some [(['T'],
        [[(alleleKey, ['T']), ("Gene".toList, "GENE1".toList), (pickKey, ['1'])],
         [(alleleKey, ['T']), ("Gene".toList, "GENE2".toList), (pickKey, ['0'])]])] ∧
    ((∀ e k, (alookup (buildTranscript [alleleKey, "Gene".toList, pickKey] e) k).isSome ↔
        k ∈ ([alleleKey, "Gene".toList, pickKey] : List PyStr).take
          (splitOnChar '|' e).length) ∧
     (∀ a, alookup [(['T'],
        [[(alleleKey, ['T']), ("Gene".toList, "GENE1".toList), (pickKey, ['1'])],
         [(alleleKey, ['T']), ("Gene".toList, "GENE2".toList), (pickKey, ['0'])]])] a =
      if groupOf [alleleKey, "Gene".toList, pickKey] a
          (splitOnChar ',' ("T|GENE1|1,T|GENE2|0".toList)) = [] then none
      else some (groupOf [alleleKey, "Gene".toList, pickKey] a
          (splitOnChar ',' ("T|GENE1|1,T|GENE2|0".toList))))) :=
  ⟨rfl, c7_block_parsing ("T|GENE1|1,T|GENE2|0".toList)
    [alleleKey, "Gene".toList, pickKey] _ rfl⟩

/-- C9: every allele group held by a parse_csq_entries result is non-empty,
so transcript_for_alt on any allele key present in the mapping returns a
record: its final first-element fallback cannot fail on parser output. -/
theorem c9_groups_nonempty (es fs : List PyStr) (m : TranscriptMap)
    (hm : parse_csq_entries es fs = some m) (a : PyStr) (ts : List Record)
    (hts : alookup m a = some ts) :
    ts ≠ [] ∧ (transcript_for_alt m a).isSome :=
  ⟨parse_groups_ne es fs m hm a ts hts,
   transcript_for_alt_isSome m a (fun x l hx => parse_groups_ne es fs m hm x l hx)
     (by simp [hts])⟩

/-- Witness for c9_groups_nonempty on a parsed two-entry value. -/
theorem c9_groups_nonempty_witness :
    parse_csq_entries [['T', '|', 'x'], ['G', '|', 'y']] [alleleKey, ['F']] =
      some [(['T'], [[(alleleKey, ['T']), (['F'], ['x'])]]),
            (['G'], [[(alleleKey, ['G']), (['F'], ['y'])]])] ∧
    alookup [(['T'], [[(alleleKey, ['T']), (['F'], ['x'])]]),
             (['G'], [[(alleleKey, ['G']), (['F'], ['y'])]])] ['G'] =
      some [[(alleleKey, ['G']), (['F'], ['y'])]] ∧
    ([[(alleleKey, ['G']), (['F'], ['y'])]] : List Record) ≠ [] ∧
    (transcript_for_alt [(['T'], [[(alleleKey, ['T']), (['F'], ['x'])]]),
             (['G'], [[(alleleKey, ['G']), (['F'], ['y'])]])] ['G']).isSome :=
  ⟨rfl, rfl,
   c9_groups_nonempty [['T', '|', 'x'], ['G', '|', 'y']] [alleleKey, ['F']] _ rfl ['G'] _ rfl⟩

/-- C10: parse_csq_entries succeeds whenever every comma entry supplies a
value at the position of the Allele schema field (the Allele name falls
within the schema prefix covered by the entry's bar-split values), and the
positional truncation does not extend to the Allele field: an entry whose
values end before the Allele position makes the parser fail with a missing
key instead of producing a short record. -/
theorem c10_allele_position (es fs : List PyStr)
    (h : ∀ e ∈ es, alleleKey ∈ fs.take (splitOnChar '|' e).length) :
    (parse_csq_entries es fs).isSome ∧
      parse_csq_entries [['G', '1']] [['G', 'e', 'n', 'e'], alleleKey] = none :=
  ⟨parse_csq_aux_total fs es []
     (fun e he => (buildTranscript_isSome fs e alleleKey).mpr (h e he)),
   rfl⟩

/-- Witness for c10_allele_position on a two-entry value whose entries both
reach the Allele position. -/
theorem c10_allele_position_witness :
    (∀ e ∈ ([['T', '|', 'x'], ['G', '|', 'y']] : List PyStr),
      alleleKey ∈ ([alleleKey, ['F']] : List PyStr).take (splitOnChar '|' e).length) ∧
    ((parse_csq_entries [['T', '|', 'x'], ['G', '|', 'y']] [alleleKey, ['F']]).isSome ∧
      parse_csq_entries [['G', '1']] [['G', 'e', 'n', 'e'], alleleKey] = none) :=
  ⟨by decide, c10_allele_position [['T', '|', 'x'], ['G', '|', 'y']] [alleleKey, ['F']]
    (by decide)⟩

theorem resolve_alleles_total (v : Variant) (cs : List PyStr)
    (ad : List (PyStr × PyStr)) (h : resolve_alleles v cs = some ad) :
    ∀ alt ∈ v.ALT, (alookup ad alt).isSome := by
  intro alt ha
  unfold resolve_alleles at h
  by_cases hi : v.is_indel = true
  · rw [if_pos hi, Option.some.injEq] at h
    rw [← h, alookup_foldl_update
      (fun alt => if alt.take 1 ≠ v.REF.take 1 then alt
        else if alt.drop 1 = [] then ['-'] else alt.drop 1)]
    simp [ha]
  · rw [if_neg hi] at h
    by_cases hs : v.is_sv = true
    · rw [if_pos hs] at h
      exact absurd h (by simp)
    · rw [if_neg hs, Option.some.injEq] at h
      rw [← h, alookup_foldl_update (fun alt => alt)]
      simp [ha]

theorem buildVep_no_schema :
    ∀ (variants : List Variant) (acc : VepMap),
    (∃ v ∈ variants, v.CSQ.isSome) →
    variants.foldlM (processVariant none) acc = Except.error PyErr.typeError := by
  intro variants
  induction variants with
  | nil => intro acc h; simp at h
  | cons v vs ih =>
    intro acc h
    cases hc : v.CSQ with
    | some csq =>
      simp only [List.foldlM_cons, processVariant, hc]
      rfl
    | none =>
      obtain ⟨w, hw, hws⟩ := h
      have hw' : w ∈ vs := by
        rcases List.mem_cons.mp hw with h1 | h1
        · subst h1; rw [hc] at hws; simp at hws
        · exact h1
      simp only [List.foldlM_cons, processVariant, hc]
      exact ih _ ⟨w, hw', hws⟩

theorem foldlM_vepStep_dup (tm : TranscriptMap) (ad : List (PyStr × PyStr))
    (c p r : PyStr)
    (hne : ∀ x ts, alookup tm x = some ts → ts ≠ []) :
    ∀ (alts : List PyStr) (m : VepMap),
    (∀ alt ∈ alts, (alookup ad alt).isSome) →
    (∃ alt ∈ alts, (alookup m (c, p, r, alt)).isSome) →
    ∃ alt ∈ alts, List.foldlM (vepStep tm ad c p r) m alts =
      Except.error (PyErr.dupExit c p r alt) := by
  intro alts
  induction alts with
  | nil => intro m _ h; simp at h
  | cons a0 alts ih =>
    intro m had hdup
    cases hk : alookup m (c, p, r, a0) with
    | some w =>
      refine ⟨a0, List.mem_cons_self a0 alts, ?_⟩
      simp only [List.foldlM_cons, vepStep, hk]
      rfl
    | none =>
      have ha0 := had a0 (List.mem_cons_self a0 alts)
      cases hads : alookup ad a0 with
      | none => rw [hads] at ha0; simp at ha0
      | some tok =>
        obtain ⟨w, hw⟩ : ∃ w, vepStep tm ad c p r m a0 =
            Except.ok (aupdate m (c, p, r, a0) w) := by
          by_cases hmem : (alookup tm tok).isSome
          · obtain ⟨t, ht⟩ := Option.isSome_iff_exists.mp
              (transcript_for_alt_isSome tm tok hne hmem)
            exact ⟨some t, by simp [vepStep, hk, hads, hmem, ht]⟩
          · exact ⟨none, by simp [vepStep, hk, hads, hmem]⟩
        obtain ⟨alt, hmem2, hsome⟩ := hdup
        have halt : alt ∈ alts := by
          rcases List.mem_cons.mp hmem2 with h1 | h1
          · subst h1; rw [hk] at hsome; simp at hsome
          · exact h1
        have hdup2 : ∃ alt ∈ alts,
            (alookup (aupdate m (c, p, r, a0) w) (c, p, r, alt)).isSome := by
          refine ⟨alt, halt, ?_⟩
          rw [alookup_aupdate]
          by_cases hx : ((c, p, r, a0) : VepKey) = (c, p, r, alt)
          · simp [hx]
          · simp [hx, hsome]
        have had2 : ∀ x ∈ alts, (alookup ad x).isSome :=
          fun x hx => had x (List.mem_cons_of_mem _ hx)
        obtain ⟨alt2, hm2, he2⟩ := ih (aupdate m (c, p, r, a0) w) had2 hdup2
        refine ⟨alt2, List.mem_cons_of_mem _ hm2, ?_⟩
        simp only [List.foldlM_cons, hw]
        simpa using he2

/-- C2 counterexample: the claim demands an abort for every pair of records
writing the same (CHROM,POS,REF,ALT) key regardless of CSQ values, but two
identical-key records that carry no CSQ value run to completion: the
absent-marker write path of the variant loop has no duplicate check and
silently overwrites. -/
theorem c2_duplicate_counterexample :
    buildVep (some [alleleKey])
      [⟨['1'], "100".toList, ['A'], [['T']], false, false, none⟩,
       ⟨['1'], "100".toList, ['A'], [['T']], false, false, none⟩] =
      Except.ok [((['1'], "100".toList, ['A'], ['T']), none)] := rfl

/-- C2 amended: a record that carries a CSQ annotation value (and whose
annotation parses and whose alleles resolve) and writes a
(CHROM,POS,REF,ALT) key already present in the index aborts the run at the
duplicate branch, with the fatal sys.exit message identifying the
coordinate and allele, before any output is written (the report phase only
runs after the whole index build succeeds); a duplicate record without a
CSQ value instead silently overwrites the stored entry with the
absent-marker. -/
theorem c2_duplicate_abort (fs : List PyStr) (vep : VepMap) (v : Variant)
    (csq : PyStr) (hcsq : v.CSQ = some csq)
    (tm : TranscriptMap) (hparse : parse_csq_entries (splitOnChar ',' csq) fs = some tm)
    (ad : List (PyStr × PyStr)) (hres : resolve_alleles v (tm.map Prod.fst) = some ad)
    (hdup : ∃ alt ∈ v.ALT, (alookup vep (v.CHROM, v.POS, v.REF, alt)).isSome) :
    ∃ alt ∈ v.ALT, processVariant (some fs) vep v =
      Except.error (PyErr.dupExit v.CHROM v.POS v.REF alt) := by
  have hne : ∀ x ts, alookup tm x = some ts → ts ≠ [] :=
    fun x ts hx => parse_groups_ne _ _ _ hparse x ts hx
  have had := resolve_alleles_total v (tm.map Prod.fst) ad hres
  obtain ⟨alt, hmem, he⟩ :=
    foldlM_vepStep_dup tm ad v.CHROM v.POS v.REF hne v.ALT vep had hdup
  refine ⟨alt, hmem, ?_⟩
  simp only [processVariant, hcsq, hparse, hres]
  exact he

/-- Witness for c2_duplicate_abort: a key stored by a first record is hit
again by a CSQ-carrying record, and the per-alt loop aborts at the
duplicate branch. -/
theorem c2_duplicate_abort_witness :
    ∃ alt ∈ [['T']], processVariant (some [alleleKey])
        [((['1'], "100".toList, ['A'], ['T']), none)]
        ⟨['1'], "100".toList, ['A'], [['T']], false, false, some ['T']⟩ =
      Except.error (PyErr.dupExit ['1'] ("100".toList) ['A'] alt) :=
  c2_duplicate_abort [alleleKey]
    [((['1'], "100".toList, ['A'], ['T']), none)]
    ⟨['1'], "100".toList, ['A'], [['T']], false, false, some ['T']⟩
    ['T'] rfl
    [(['T'], [[(alleleKey, ['T'])]])] rfl
    [(['T'], ['T'])] rfl
    ⟨['T'], by decide, by decide⟩

/-- C3 counterexample: a report row whose (CHROM,POS,REF,ALT) key was never
seen in the VCF at all does not yield the dash placeholder: the nested
index lookup raises KeyError and the run aborts, refuting the claim's
never-seen case. -/
theorem c3_missing_key_counterexample :
    processRow [] ["Gene".toList]
      [("CHROM".toList, ['1']), ("POS".toList, "100".toList),
       ("REF".toList, ['A']), ("ALT".toList, ['T'])] =
      Except.error PyErr.keyError := rfl

/-- C3 amended: the value collected for an ALT of a report row is the dash
placeholder when the (CHROM,POS,REF,ALT) key is stored with the
absent-marker, and likewise when it is stored with a record lacking the
requested field; a key never seen in the VCF at all instead raises
KeyError, aborting the run rather than yielding dashes. -/
theorem c3_collected_values (vep : VepMap) (key : VepKey) (field : PyStr) :
    (alookup vep key = some none → collectAnnot vep key field = Except.ok ['-']) ∧
    (∀ rec, alookup vep key = some (some rec) → alookup rec field = none →
      collectAnnot vep key field = Except.ok ['-']) ∧
    (alookup vep key = none → collectAnnot vep key field = Except.error PyErr.keyError) := by
  refine ⟨fun h => ?_, fun rec h1 h2 => ?_, fun h => ?_⟩ <;>
    simp [collectAnnot, *]

/-- Witness for c3_collected_values at a stored absent-marker and at an
empty index. -/
theorem c3_collected_values_witness :
    collectAnnot [((['1'], "100".toList, ['A'], ['T']), none)]
        (['1'], "100".toList, ['A'], ['T']) ("Gene".toList) = Except.ok ['-'] ∧
    collectAnnot [] (['1'], "100".toList, ['A'], ['T']) ("Gene".toList) =
        Except.error PyErr.keyError :=
  ⟨(c3_collected_values [((['1'], "100".toList, ['A'], ['T']), none)]
      (['1'], "100".toList, ['A'], ['T']) ("Gene".toList)).1 rfl,
   (c3_collected_values [] (['1'], "100".toList, ['A'], ['T']) ("Gene".toList)).2.2 rfl⟩

/-- C8 counterexample: with no CSQ INFO header entry at all and a VCF whose
only record carries no CSQ value, the run does not fail at all: it
completes and writes the report row with dash placeholders, so no fatal
failure is surfaced before (or during) variant and row processing. -/
theorem c8_no_header_counterexample :
    mainModel [] [⟨['1'], "100".toList, ['A'], [['T']], false, false, none⟩]
      [[("CHROM".toList, ['1']), ("POS".toList, "100".toList),
        ("REF".toList, ['A']), ("ALT".toList, ['T'])]]
      ["Gene".toList] =
    Except.ok [[("CHROM".toList, ['1']), ("POS".toList, "100".toList),
        ("REF".toList, ['A']), ("ALT".toList, ['T']), ("Gene".toList, ['-'])]] := rfl

/-- C8 amended: when a CSQ INFO header entry exists but its description
lacks the Format marker, the run fails fatally (AttributeError) before any
variant or report-row processing; when no CSQ INFO header entry exists at
all, the schema is Python None and the run fails only at the first variant
that carries a CSQ value (TypeError while zipping against None) — and
completes without error when no variant does. -/
theorem c8_schema_failure (headers : List HeaderInfo) (variants : List Variant)
    (rows : List Record) (flds : List PyStr)
    (h : (∃ hd, headers.find? isCSQHeader = some hd ∧ formatGroup hd.description = none) ∨
      (headers.find? isCSQHeader = none ∧ ∃ v ∈ variants, v.CSQ.isSome)) :
    mainModel headers variants rows flds = Except.error PyErr.attributeError ∨
      mainModel headers variants rows flds = Except.error PyErr.typeError := by
  cases h with
  | inl h =>
    obtain ⟨hd, h1, h2⟩ := h
    left
    simp only [mainModel, parse_csq_header, h1, h2]
    rfl
  | inr h =>
    obtain ⟨h1, hv⟩ := h
    right
    have hb := buildVep_no_schema variants [] hv
    simp only [mainModel, parse_csq_header, h1]
    show (buildVep none variants).bind _ = _
    rw [buildVep, hb]
    rfl

/-- Witness for c8_schema_failure: a malformed CSQ description aborts
immediately; a missing CSQ entry together with one CSQ-carrying variant
aborts at that variant. -/
theorem c8_schema_failure_witness :
    (mainModel [⟨some csqKey, "no marker here".toList⟩] [] [] [] =
        Except.error PyErr.attributeError ∨
      mainModel [⟨some csqKey, "no marker here".toList⟩] [] [] [] =
        Except.error PyErr.typeError) ∧
    (mainModel [] [⟨['1'], "100".toList, ['A'], [['T']], false, false, some ['x']⟩] [] [] =
        Except.error PyErr.attributeError ∨
      mainModel [] [⟨['1'], "100".toList, ['A'], [['T']], false, false, some ['x']⟩] [] [] =
        Except.error PyErr.typeError) :=
  ⟨c8_schema_failure [⟨some csqKey, "no marker here".toList⟩] [] [] []
      (Or.inl ⟨⟨some csqKey, "no marker here".toList⟩, rfl, rfl⟩),
   c8_schema_failure [] [⟨['1'], "100".toList, ['A'], [['T']], false, false, some ['x']⟩] [] []
      (Or.inr ⟨rfl, ⟨['1'], "100".toList, ['A'], [['T']], false, false, some ['x']⟩,
        List.mem_singleton.mpr rfl, rfl⟩)⟩
